import Mathlib

/-!
Verification development for the batch/job orchestration core of the
fish-finder repository (`src/types.ts`, class `JobManager`).

The TypeScript class is shallowly embedded: the two `Map`s (`jobs`,
`batches`) become association lists with JavaScript `Map` semantics
(`set` updates in place, preserving insertion order), mutation becomes
explicit state passing, `EventEmitter.emit` becomes appending to an
event log carried in the state, `Date.now()` / `new Date()` and
`uuidv4()` become explicit parameters.  TypeScript numbers are modelled
as `Int`: no claim depends on fractional values.
-/

namespace FishFinder

/-- Timestamp from types.ts: start and end of an appearance interval. -/
structure Timestamp where
  start : Int
  stop : Int
deriving DecidableEq, Repr

/-- IdentifiedSpecies from types.ts (payload of analysis results). -/
structure IdentifiedSpecies where
  commonName : String
  scientificName : String
  confidence : Int
  timestamps : List Timestamp
  habitat : String
  description : String
  frameFiles : Option (List String)
deriving DecidableEq, Repr

/-- FishFinderResult from types.ts: the result payload of one analysis. -/
structure FishFinderResult where
  video : String
  duration : Int
  identifiedSpecies : List IdentifiedSpecies
  summary : String
  analyzedAt : String
deriving DecidableEq, Repr

/-- JobStatus from types.ts. -/
inductive JobStatus where
  | pending
  | running
  | completed
  | failed
deriving DecidableEq, Repr

/-- BatchStatus from types.ts. -/
inductive BatchStatus where
  | pending
  | running
  | completed
  | cancelled
deriving DecidableEq, Repr

/-- The stage enumeration of ProgressUpdate. -/
inductive Stage where
  | uploading
  | processing
  | analyzing
  | extracting
deriving DecidableEq, Repr

/-- ProgressUpdate from types.ts. -/
structure ProgressUpdate where
  stage : Stage
  percent : Int
  message : String
deriving DecidableEq, Repr

/-- Job record from types.ts. -/
structure Job where
  id : String
  status : JobStatus
  progress : Option ProgressUpdate
  result : Option FishFinderResult
  error : Option String
  startedAt : Int
  completedAt : Option Int
deriving DecidableEq, Repr

/-- VideoQueueItem from types.ts. -/
structure VideoQueueItem where
  path : String
  originalName : String
deriving DecidableEq, Repr

/-- BatchJob record from types.ts (the incremental-queue variant). -/
structure BatchJob where
  batchId : String
  videos : List String
  videoQueue : List VideoQueueItem
  originalNames : List (String × String)
  model : String
  fps : Int
  currentIndex : Int
  currentJobId : Option String
  completed : List String
  failed : List (String × String)
  results : List (String × FishFinderResult)
  status : BatchStatus
  uploadsComplete : Bool
  startedAt : Int
  completedAt : Option Int
deriving DecidableEq, Repr

/-- One emitted event, with its structured payload, mirroring the
`this.emit(...)` calls of JobManager. -/
inductive Event where
  | progress (id : String) (p : ProgressUpdate)
  | complete (id : String) (r : FishFinderResult)
  | error (id : String) (e : String)
  | batchCreated (batchId : String) (expectedCount : Option Int)
  | batchVideoAdded (batchId path originalName : String) (queueLength total : Nat)
  | batchUploadsComplete (batchId : String) (total : Nat)
  | batchVideoStart (batchId path : String) (index : Int) (total : Nat)
  | batchVideoProgress (batchId path : String) (p : ProgressUpdate)
  | batchProgress (batchId : String) (total completedCount failedCount : Nat)
      (currentIndex : Int) (currentVideo : String) (currentProgress : ProgressUpdate)
  | batchVideoComplete (batchId path : String) (r : FishFinderResult)
      (completedCount total : Nat)
  | batchVideoError (batchId path e : String) (failedCount total : Nat)
  | batchVideoSkipped (batchId path reason : String) (completedCount total : Nat)
  | batchComplete (batchId : String) (completed : List String)
      (failed : List (String × String)) (total : Nat)
  | batchCancelled (batchId : String) (completed : List String)
      (failed : List (String × String)) (remaining : Int)
deriving DecidableEq, Repr

/-- Association-list lookup, modelling JavaScript `Map.prototype.get`. -/
def aget {α : Type} : List (String × α) → String → Option α
  | [], _ => none
  | (k, v) :: rest, key => if k = key then some v else aget rest key

/-- Association-list update, modelling JavaScript `Map.prototype.set`:
an existing key is updated in place (keeping its position), a new key is
appended at the end. -/
def aset {α : Type} : List (String × α) → String → α → List (String × α)
  | [], key, v => [(key, v)]
  | (k, w) :: rest, key, v =>
      if k = key then (key, v) :: rest else (k, w) :: aset rest key v

/-- JavaScript `Array.prototype.indexOf` on a list of strings: index of
the first occurrence, or -1. -/
def indexOf : List String → String → Int
  | [], _ => -1
  | x :: rest, y =>
      if x = y then 0
      else
        let i := indexOf rest y
        if i = -1 then -1 else i + 1

/-- The whole mutable state of the JobManager instance: the two maps
plus the log of events emitted so far (in emission order). -/
structure JobManager where
  jobs : List (String × Job)
  batches : List (String × BatchJob)
  events : List Event
deriving DecidableEq, Repr

/-- The freshly constructed JobManager: empty maps, nothing emitted. -/
def initState : JobManager := { jobs := [], batches := [], events := [] }

/-- createJob(id): inserts a pending Job stamped with the current time. -/
def createJob (s : JobManager) (id : String) (now : Int) : JobManager :=
  let job : Job :=
    { id := id, status := .pending, progress := none, result := none,
      error := none, startedAt := now, completedAt := none }
  { s with jobs := aset s.jobs id job }

/-- getJob(id). -/
def getJob (s : JobManager) (id : String) : Option Job :=
  aget s.jobs id

/-- updateProgress(id, progress): unknown id is a no-op; otherwise the
status is forced to running, the snapshot stored, and a progress event
emitted. -/
def updateProgress (s : JobManager) (id : String) (progress : ProgressUpdate) :
    JobManager :=
  match aget s.jobs id with
  | none => s
  | some job =>
      { s with
        jobs := aset s.jobs id ({ job with status := .running, progress := some progress }),
        events := s.events ++ [Event.progress id progress] }

/-- completeJob(id, result): unknown id is a no-op; otherwise status
completed, result stored, completion time stamped, event emitted. -/
def completeJob (s : JobManager) (id : String) (result : FishFinderResult)
    (now : Int) : JobManager :=
  match aget s.jobs id with
  | none => s
  | some job =>
      let job2 := { job with status := .completed, result := some result, completedAt := some now }
      { s with
        jobs := aset s.jobs id job2,
        events := s.events ++ [Event.complete id result] }

/-- failJob(id, error): unknown id is a no-op; otherwise status failed,
error stored, completion time stamped, event emitted. -/
def failJob (s : JobManager) (id : String) (error : String) (now : Int) :
    JobManager :=
  match aget s.jobs id with
  | none => s
  | some job =>
      let job2 := { job with status := .failed, error := some error, completedAt := some now }
      { s with
        jobs := aset s.jobs id job2,
        events := s.events ++ [Event.error id error] }

/-- cleanup(): deletes every job and batch whose startedAt lies strictly
before `now - 1 hour` (in milliseconds), exactly as the source computes
`oneHourAgo`. -/
def cleanup (s : JobManager) (now : Int) : JobManager :=
  { s with
    jobs := s.jobs.filter (fun kv => !decide (kv.2.startedAt < now - 60 * 60 * 1000)),
    batches := s.batches.filter (fun kv => !decide (kv.2.startedAt < now - 60 * 60 * 1000)) }

/-- createBatch(videos, model, fps): pre-filled queue (originalName is
the path itself), uploadsComplete true immediately, status pending.
The uuid and the current time are passed in explicitly. -/
def createBatch (s : JobManager) (videos : List String) (model : String)
    (fps : Int) (batchId : String) (now : Int) : JobManager :=
  let batch : BatchJob :=
    { batchId := batchId, videos := videos,
      videoQueue := videos.map (fun v => { path := v, originalName := v }),
      originalNames := [], model := model, fps := fps,
      currentIndex := -1, currentJobId := none,
      completed := [], failed := [], results := [],
      status := .pending, uploadsComplete := true,
      startedAt := now, completedAt := none }
  { s with batches := aset s.batches batchId batch }

/-- createEmptyBatch(model, fps, expectedCount?): empty queue,
uploadsComplete false, status pending; emits batch:created. -/
def createEmptyBatch (s : JobManager) (model : String) (fps : Int)
    (expectedCount : Option Int) (batchId : String) (now : Int) : JobManager :=
  let batch : BatchJob :=
    { batchId := batchId, videos := [], videoQueue := [],
      originalNames := [], model := model, fps := fps,
      currentIndex := -1, currentJobId := none,
      completed := [], failed := [], results := [],
      status := .pending, uploadsComplete := false,
      startedAt := now, completedAt := none }
  { s with
    batches := aset s.batches batchId batch,
    events := s.events ++ [Event.batchCreated batchId expectedCount] }

/-- addVideoToBatch(batchId, videoPath, originalName): returns false on
a missing, completed or cancelled batch; otherwise appends to the
history, the queue and the name map, emits batch:video_added, and
returns true. -/
def addVideoToBatch (s : JobManager) (batchId videoPath originalName : String) :
    Bool × JobManager :=
  match aget s.batches batchId with
  | none => (false, s)
  | some batch =>
      if batch.status = .completed ∨ batch.status = .cancelled then (false, s)
      else
        let batch2 := { batch with
          videos := batch.videos ++ [videoPath],
          videoQueue := batch.videoQueue ++ [{ path := videoPath, originalName := originalName }],
          originalNames := aset batch.originalNames videoPath originalName }
        (true, { s with
          batches := aset s.batches batchId batch2,
          events := s.events ++ [Event.batchVideoAdded batchId videoPath originalName
            batch2.videoQueue.length batch2.videos.length] })

/-- markUploadsComplete(batchId): sets the flag and emits
batch:uploads_complete; missing batch is a no-op. -/
def markUploadsComplete (s : JobManager) (batchId : String) : JobManager :=
  match aget s.batches batchId with
  | none => s
  | some batch =>
      { s with
        batches := aset s.batches batchId ({ batch with uploadsComplete := true }),
        events := s.events ++ [Event.batchUploadsComplete batchId batch.videos.length] }

/-- getNextQueuedVideo(batchId): null on a missing batch or an empty
queue, otherwise shifts and returns the head of the queue.  Note: no
status check. -/
def getNextQueuedVideo (s : JobManager) (batchId : String) :
    Option VideoQueueItem × JobManager :=
  match aget s.batches batchId with
  | none => (none, s)
  | some batch =>
      match batch.videoQueue with
      | [] => (none, s)
      | item :: rest =>
          (some item,
           { s with batches := aset s.batches batchId ({ batch with videoQueue := rest }) })

/-- shouldBatchWait(batchId): false on a missing batch; otherwise true
iff uploads are not complete and the queue is currently empty. -/
def shouldBatchWait (s : JobManager) (batchId : String) : Bool :=
  match aget s.batches batchId with
  | none => false
  | some batch => !batch.uploadsComplete && batch.videoQueue.length == 0

/-- isBatchDone(batchId): true on a missing batch; otherwise true iff
uploads are complete and the queue is empty. -/
def isBatchDone (s : JobManager) (batchId : String) : Bool :=
  match aget s.batches batchId with
  | none => true
  | some batch => batch.uploadsComplete && batch.videoQueue.length == 0

/-- getBatch(batchId). -/
def getBatch (s : JobManager) (batchId : String) : Option BatchJob :=
  aget s.batches batchId

/-- startBatchVideo(batchId, videoPath, jobId): unconditionally sets
status running, resolves the index of videoPath in the history, records
the job id, emits batch:video_start.  Missing batch is a no-op. -/
def startBatchVideo (s : JobManager) (batchId videoPath jobId : String) :
    JobManager :=
  match aget s.batches batchId with
  | none => s
  | some batch =>
      let batch2 := { batch with
        status := .running,
        currentIndex := indexOf batch.videos videoPath,
        currentJobId := some jobId }
      { s with
        batches := aset s.batches batchId batch2,
        events := s.events ++ [Event.batchVideoStart batchId videoPath
          batch2.currentIndex batch.videos.length] }

/-- updateBatchVideoProgress(batchId, videoPath, progress): emits the
per-video event immediately followed by the aggregate event; no state
field changes.  Missing batch is a no-op. -/
def updateBatchVideoProgress (s : JobManager) (batchId videoPath : String)
    (progress : ProgressUpdate) : JobManager :=
  match aget s.batches batchId with
  | none => s
  | some batch =>
      { s with events := s.events ++
          [Event.batchVideoProgress batchId videoPath progress,
           Event.batchProgress batchId batch.videos.length batch.completed.length
             batch.failed.length batch.currentIndex videoPath progress] }

/-- completeBatchVideo(batchId, videoPath, result): pushes the path onto
completed, stores the result, clears currentJobId, emits
batch:video_complete.  Missing batch is a no-op. -/
def completeBatchVideo (s : JobManager) (batchId videoPath : String)
    (result : FishFinderResult) : JobManager :=
  match aget s.batches batchId with
  | none => s
  | some batch =>
      let batch2 := { batch with
        completed := batch.completed ++ [videoPath],
        results := aset batch.results videoPath result,
        currentJobId := none }
      { s with
        batches := aset s.batches batchId batch2,
        events := s.events ++ [Event.batchVideoComplete batchId videoPath result
          batch2.completed.length batch.videos.length] }

/-- failBatchVideo(batchId, videoPath, error): pushes the pair onto
failed, clears currentJobId, emits batch:video_error.  Missing batch is
a no-op. -/
def failBatchVideo (s : JobManager) (batchId videoPath error : String) :
    JobManager :=
  match aget s.batches batchId with
  | none => s
  | some batch =>
      let batch2 := { batch with
        failed := batch.failed ++ [(videoPath, error)],
        currentJobId := none }
      { s with
        batches := aset s.batches batchId batch2,
        events := s.events ++ [Event.batchVideoError batchId videoPath error
          batch2.failed.length batch.videos.length] }

/-- skipBatchVideo(batchId, videoPath, reason): counts the path as
completed (no result stored, currentJobId untouched), emits
batch:video_skipped.  Missing batch is a no-op. -/
def skipBatchVideo (s : JobManager) (batchId videoPath reason : String) :
    JobManager :=
  match aget s.batches batchId with
  | none => s
  | some batch =>
      let batch2 := { batch with completed := batch.completed ++ [videoPath] }
      { s with
        batches := aset s.batches batchId batch2,
        events := s.events ++ [Event.batchVideoSkipped batchId videoPath reason
          batch2.completed.length batch.videos.length] }

/-- completeBatch(batchId): unconditionally (no status check) sets
status completed, stamps completedAt, clears currentJobId, emits
batch:complete.  Missing batch is a no-op. -/
def completeBatch (s : JobManager) (batchId : String) (now : Int) : JobManager :=
  match aget s.batches batchId with
  | none => s
  | some batch =>
      let batch2 := { batch with status := .completed, completedAt := some now, currentJobId := none }
      { s with
        batches := aset s.batches batchId batch2,
        events := s.events ++ [Event.batchComplete batchId batch.completed
          batch.failed batch.videos.length] }

/-- cancelBatch(batchId): only from status running; sets cancelled,
stamps completedAt, emits batch:cancelled, returns true.  Any other
state (or a missing batch) returns false and changes nothing. -/
def cancelBatch (s : JobManager) (batchId : String) (now : Int) :
    Bool × JobManager :=
  match aget s.batches batchId with
  | none => (false, s)
  | some batch =>
      if batch.status = .running then
        let batch2 := { batch with status := .cancelled, completedAt := some now }
        (true, { s with
          batches := aset s.batches batchId batch2,
          events := s.events ++ [Event.batchCancelled batchId batch.completed
            batch.failed
            ((batch.videos.length : Int) - (batch.completed.length : Int)
              - (batch.failed.length : Int))] })
      else (false, s)

/-- isBatchCancelled(batchId): batch?.status === cancelled. -/
def isBatchCancelled (s : JobManager) (batchId : String) : Bool :=
  match aget s.batches batchId with
  | none => false
  | some batch => decide (batch.status = .cancelled)

/-!  Derived execution machinery used by the stated properties. -/

/-- A sequence of cancelBatch calls on a fixed batch, each with its own
wall-clock time; returns the list of boolean results and the final
state. -/
def cancelMany (s : JobManager) (batchId : String) : List Int → List Bool × JobManager
  | [] => ([], s)
  | t :: ts =>
      let r := cancelBatch s batchId t
      let q := cancelMany r.2 batchId ts
      (r.1 :: q.1, q.2)

/-- Repeated GC sweeps at the given sequence of times. -/
def runSweeps (s : JobManager) : List Int → JobManager
  | [] => s
  | t :: ts => runSweeps (cleanup s t) ts

/-- One step of the producer/consumer interleaving on a fixed batch:
either an addVideoToBatch call or a getNextQueuedVideo call. -/
inductive QOp where
  | add (path originalName : String)
  | next
deriving DecidableEq, Repr

/-- Runs an interleaving of addVideoToBatch and getNextQueuedVideo on
batch `batchId`, collecting the return value of every getNextQueuedVideo
call (in call order). -/
def runQ (batchId : String) (s : JobManager) :
    List QOp → JobManager × List (Option VideoQueueItem)
  | [] => (s, [])
  | QOp.add p n :: rest => runQ batchId (addVideoToBatch s batchId p n).2 rest
  | QOp.next :: rest =>
      let r := getNextQueuedVideo s batchId
      let q := runQ batchId r.2 rest
      (q.1, r.1 :: q.2)

/-- The queue items submitted by the add calls of an interleaving, in
call order. -/
def addedItems (qops : List QOp) : List VideoQueueItem :=
  qops.filterMap (fun o => match o with
    | QOp.add p n => some { path := p, originalName := n }
    | QOp.next => none)

/-- One per-video outcome call: completeBatchVideo, failBatchVideo or
skipBatchVideo. -/
inductive VOp where
  | completeV (path : String) (result : FishFinderResult)
  | failV (path : String) (error : String)
  | skipV (path : String) (reason : String)
deriving DecidableEq, Repr

/-- The path argument of a per-video outcome call. -/
def VOp.path : VOp → String
  | .completeV p _ => p
  | .failV p _ => p
  | .skipV p _ => p

/-- Whether a per-video outcome call records a failure. -/
def VOp.isFail : VOp → Bool
  | .failV _ _ => true
  | _ => false

/-- Runs a sequence of per-video outcome calls on batch `batchId`. -/
def runV (batchId : String) (s : JobManager) : List VOp → JobManager
  | [] => s
  | VOp.completeV p r :: rest => runV batchId (completeBatchVideo s batchId p r) rest
  | VOp.failV p e :: rest => runV batchId (failBatchVideo s batchId p e) rest
  | VOp.skipV p q :: rest => runV batchId (skipBatchVideo s batchId p q) rest

/-- The paths recorded as completed by a sequence of outcome calls
(complete and skip calls), in call order. -/
def completedOf (vops : List VOp) : List String :=
  vops.filterMap (fun v => match v with
    | VOp.completeV p _ => some p
    | VOp.failV _ _ => none
    | VOp.skipV p _ => some p)

/-- The (path, error) pairs recorded as failed by a sequence of outcome
calls, in call order. -/
def failedOf (vops : List VOp) : List (String × String) :=
  vops.filterMap (fun v => match v with
    | VOp.failV p e => some (p, e)
    | _ => none)

/-- One arbitrary mutating JobManager call, with every nondeterministic
input (uuid, wall-clock time) made explicit.  Read-only calls do not
change the state and are omitted. -/
inductive Op where
  | createJob (id : String) (now : Int)
  | updateProgress (id : String) (p : ProgressUpdate)
  | completeJob (id : String) (r : FishFinderResult) (now : Int)
  | failJob (id : String) (e : String) (now : Int)
  | cleanup (now : Int)
  | createBatch (videos : List String) (model : String) (fps : Int)
      (batchId : String) (now : Int)
  | createEmptyBatch (model : String) (fps : Int) (expectedCount : Option Int)
      (batchId : String) (now : Int)
  | addVideoToBatch (batchId path originalName : String)
  | markUploadsComplete (batchId : String)
  | getNextQueuedVideo (batchId : String)
  | startBatchVideo (batchId path jobId : String)
  | updateBatchVideoProgress (batchId path : String) (p : ProgressUpdate)
  | completeBatchVideo (batchId path : String) (r : FishFinderResult)
  | failBatchVideo (batchId path e : String)
  | skipBatchVideo (batchId path reason : String)
  | completeBatch (batchId : String) (now : Int)
  | cancelBatch (batchId : String) (now : Int)
deriving DecidableEq, Repr

/-- Applies one call to the state (return values discarded). -/
def applyOp (s : JobManager) : Op → JobManager
  | .createJob id now => createJob s id now
  | .updateProgress id p => updateProgress s id p
  | .completeJob id r now => completeJob s id r now
  | .failJob id e now => failJob s id e now
  | .cleanup now => cleanup s now
  | .createBatch videos model fps batchId now => createBatch s videos model fps batchId now
  | .createEmptyBatch model fps ec batchId now => createEmptyBatch s model fps ec batchId now
  | .addVideoToBatch batchId p n => (addVideoToBatch s batchId p n).2
  | .markUploadsComplete batchId => markUploadsComplete s batchId
  | .getNextQueuedVideo batchId => (getNextQueuedVideo s batchId).2
  | .startBatchVideo batchId p j => startBatchVideo s batchId p j
  | .updateBatchVideoProgress batchId p pr => updateBatchVideoProgress s batchId p pr
  | .completeBatchVideo batchId p r => completeBatchVideo s batchId p r
  | .failBatchVideo batchId p e => failBatchVideo s batchId p e
  | .skipBatchVideo batchId p reason => skipBatchVideo s batchId p reason
  | .completeBatch batchId now => completeBatch s batchId now
  | .cancelBatch batchId now => (cancelBatch s batchId now).2

/-- Runs a whole call sequence from a given state. -/
def run (s : JobManager) : List Op → JobManager
  | [] => s
  | o :: ops => run (applyOp s o) ops

/-!  Basic lemmas about the association-list model of `Map`. -/

/-- Setting then getting the same key yields the stored value. -/
theorem aget_aset_self {α : Type} (m : List (String × α)) (k : String) (v : α) :
    aget (aset m k v) k = some v := by
  induction m with
  | nil => simp [aget, aset]
  | cons hd tl ih =>
      by_cases h : hd.1 = k
      · simp [aset, aget, h]
      · simp [aset, aget, h, ih]

/-- Every entry of `aset m k v` is either the new pair or an entry of
`m`. -/
theorem mem_aset {α : Type} {m : List (String × α)} {k : String} {v : α}
    {p : String × α} (hp : p ∈ aset m k v) : p = (k, v) ∨ p ∈ m := by
  induction m with
  | nil => simpa [aset] using hp
  | cons hd tl ih =>
      by_cases h : hd.1 = k
      · rw [aset, if_pos h] at hp
        rcases List.mem_cons.1 hp with h1 | h1
        · exact Or.inl h1
        · exact Or.inr (List.mem_cons_of_mem _ h1)
      · rw [aset, if_neg h] at hp
        rcases List.mem_cons.1 hp with h1 | h1
        · exact Or.inr (h1 ▸ List.mem_cons_self _ _)
        · rcases ih h1 with h2 | h2
          · exact Or.inl h2
          · exact Or.inr (List.mem_cons_of_mem _ h2)

/-- A successful lookup is a list membership. -/
theorem aget_mem {α : Type} {m : List (String × α)} {k : String} {v : α}
    (h : aget m k = some v) : (k, v) ∈ m := by
  induction m with
  | nil => simp [aget] at h
  | cons hd tl ih =>
      by_cases hk : hd.1 = k
      · rw [aget, if_pos hk] at h
        obtain ⟨a, b⟩ := hd
        cases hk
        cases h
        exact List.mem_cons_self _ _
      · rw [aget, if_neg hk] at h
        exact List.mem_cons_of_mem _ (ih h)

/-!  Concrete sample data used to instantiate the theorems. -/

/-- A fallback Job value (only used through `Option.getD` where the
lookup is known to succeed). -/
def defaultJob : Job :=
  { id := "", status := .pending, progress := none, result := none,
    error := none, startedAt := 0, completedAt := none }

/-- A fallback BatchJob value (only used through `Option.getD` where the
lookup is known to succeed). -/
def defaultBatch : BatchJob :=
  { batchId := "", videos := [], videoQueue := [], originalNames := [],
    model := "", fps := 0, currentIndex := -1, currentJobId := none,
    completed := [], failed := [], results := [], status := .pending,
    uploadsComplete := true, startedAt := 0, completedAt := none }

/-- A minimal analysis result payload. -/
def dummyResult : FishFinderResult :=
  { video := "/a", duration := 0, identifiedSpecies := [], summary := "",
    analyzedAt := "" }

/-- A sample progress snapshot. -/
def sampleProgress : ProgressUpdate :=
  { stage := .uploading, percent := 10, message := "up" }

/-- A pre-populated batch "b" holding one video, status pending. -/
def sampleBatch1 : JobManager := createBatch initState ["/a"] "m" 1 "b" 0

/-- The sample batch after startBatchVideo: status running, current job
id "j". -/
def sampleRunning : JobManager := startBatchVideo sampleBatch1 "b" "/a" "j"

/-- The sample batch after a successful cancel: status cancelled, queue
still non-empty, currentJobId still set. -/
def sampleCancelled : JobManager := (cancelBatch sampleRunning "b" 5).2

/-!  Claims. -/

/-- Claim C2: for every existing batch, isBatchDone returns true iff the
uploadsComplete flag is set and the video queue is empty; in particular
it is false whenever uploadsComplete is false, regardless of the queue
contents. -/
theorem isBatchDone_iff (s : JobManager) (batchId : String) (b : BatchJob)
    (h : aget s.batches batchId = some b) :
    (isBatchDone s batchId = true ↔ (b.uploadsComplete = true ∧ b.videoQueue = []))
    ∧ (b.uploadsComplete = false → isBatchDone s batchId = false) := by
  constructor
  · simp [isBatchDone, h, Bool.and_eq_true, List.length_eq_zero]
  · intro hu
    simp [isBatchDone, h, hu]

/-- Witness for C2: a batch created with an empty pre-filled list has
uploadsComplete true and an empty queue, so isBatchDone is true. -/
theorem isBatchDone_iff_witness :
    isBatchDone (createBatch initState [] "m" 1 "b" 0) "b" = true :=
  (isBatchDone_iff (createBatch initState [] "m" 1 "b" 0) "b"
    ((aget (createBatch initState [] "m" 1 "b" 0).batches "b").getD defaultBatch)
    rfl).1.mpr ⟨by decide, by decide⟩

/-- Claim C10: a batchId absent from the registry is reported as done
(isBatchDone true), not waiting (shouldBatchWait false), and with no
queued video (getNextQueuedVideo null, state unchanged). -/
theorem missingBatch_treated_done (s : JobManager) (batchId : String)
    (h : aget s.batches batchId = none) :
    isBatchDone s batchId = true ∧ shouldBatchWait s batchId = false ∧
    getNextQueuedVideo s batchId = (none, s) := by
  refine ⟨?_, ?_, ?_⟩ <;> simp [isBatchDone, shouldBatchWait, getNextQueuedVideo, h]

/-- Witness for C10, at the empty registry. -/
theorem missingBatch_treated_done_witness :
    isBatchDone initState "nope" = true ∧ shouldBatchWait initState "nope" = false ∧
    getNextQueuedVideo initState "nope" = (none, initState) :=
  missingBatch_treated_done initState "nope" rfl

/-- Claim C8: for a job id unknown to the registry, updateProgress,
completeJob and failJob leave the whole state (including the event log)
unchanged; for a known id, updateProgress forces the status to running
from any prior status and replaces the snapshot wholesale. -/
theorem unknownJob_silent_noop (s : JobManager) (id : String) (p : ProgressUpdate)
    (r : FishFinderResult) (e : String) (t1 t2 : Int) :
    (aget s.jobs id = none →
      updateProgress s id p = s ∧ completeJob s id r t1 = s ∧ failJob s id e t2 = s)
    ∧ (∀ j, aget s.jobs id = some j →
        aget (updateProgress s id p).jobs id =
          some { j with status := .running, progress := some p }) := by
  constructor
  · intro h
    refine ⟨?_, ?_, ?_⟩ <;> simp [updateProgress, completeJob, failJob, h]
  · intro j h
    simp [updateProgress, h, aget_aset_self]

/-- Witness for C8: unknown id at the empty registry, and a known
pending job forced to running with the new snapshot stored. -/
theorem unknownJob_silent_noop_witness :
    updateProgress initState "x" sampleProgress = initState ∧
    aget (updateProgress (createJob initState "j" 0) "j" sampleProgress).jobs "j" =
      some { (aget (createJob initState "j" 0).jobs "j").getD defaultJob with
             status := .running, progress := some sampleProgress } :=
  ⟨((unknownJob_silent_noop initState "x" sampleProgress dummyResult "e" 0 0).1 rfl).1,
   (unknownJob_silent_noop (createJob initState "j" 0) "j" sampleProgress dummyResult
     "e" 0 0).2 _ rfl⟩

/-- A record within the retention window at each sweep time survives
every sweep of the sequence (jobs map). -/
theorem runSweeps_keeps_job (id : String) (j : Job) :
    ∀ (ts : List Int) (s : JobManager), (id, j) ∈ s.jobs →
      (∀ t ∈ ts, t - j.startedAt ≤ 60 * 60 * 1000) →
      (id, j) ∈ (runSweeps s ts).jobs := by
  intro ts
  induction ts with
  | nil =>
      intro s h _
      simpa [runSweeps] using h
  | cons t ts ih =>
      intro s h hall
      rw [runSweeps]
      apply ih
      · have ht := hall t (List.mem_cons_self _ _)
        simp only [cleanup, List.mem_filter]
        refine ⟨h, ?_⟩
        simp only [Bool.not_eq_true', decide_eq_false_iff_not]
        omega
      · intro u hu
        exact hall u (List.mem_cons_of_mem _ hu)

/-- A record within the retention window at each sweep time survives
every sweep of the sequence (batches map). -/
theorem runSweeps_keeps_batch (batchId : String) (b : BatchJob) :
    ∀ (ts : List Int) (s : JobManager), (batchId, b) ∈ s.batches →
      (∀ t ∈ ts, t - b.startedAt ≤ 60 * 60 * 1000) →
      (batchId, b) ∈ (runSweeps s ts).batches := by
  intro ts
  induction ts with
  | nil =>
      intro s h _
      simpa [runSweeps] using h
  | cons t ts ih =>
      intro s h hall
      rw [runSweeps]
      apply ih
      · have ht := hall t (List.mem_cons_self _ _)
        simp only [cleanup, List.mem_filter]
        refine ⟨h, ?_⟩
        simp only [Bool.not_eq_true', decide_eq_false_iff_not]
        omega
      · intro u hu
        exact hall u (List.mem_cons_of_mem _ hu)

/-- Claim C9: one cleanup sweep at time `now` keeps a job or batch
record (unchanged) iff `now - startedAt` does not exceed the one-hour
retention window, regardless of its status, and purges it otherwise;
and a record within the window at each sweep time survives arbitrarily
many sweeps. -/
theorem cleanup_retention (s : JobManager) (now : Int) (id : String) (j : Job)
    (batchId : String) (b : BatchJob) (ts : List Int) :
    ((id, j) ∈ s.jobs →
      (((id, j) ∈ (cleanup s now).jobs) ↔ now - j.startedAt ≤ 60 * 60 * 1000))
    ∧ ((batchId, b) ∈ s.batches →
      (((batchId, b) ∈ (cleanup s now).batches) ↔ now - b.startedAt ≤ 60 * 60 * 1000))
    ∧ ((id, j) ∈ s.jobs → (∀ t ∈ ts, t - j.startedAt ≤ 60 * 60 * 1000) →
        (id, j) ∈ (runSweeps s ts).jobs)
    ∧ ((batchId, b) ∈ s.batches → (∀ t ∈ ts, t - b.startedAt ≤ 60 * 60 * 1000) →
        (batchId, b) ∈ (runSweeps s ts).batches) := by
  refine ⟨?_, ?_, runSweeps_keeps_job id j ts s, runSweeps_keeps_batch batchId b ts s⟩
  · intro h
    simp only [cleanup, List.mem_filter, h, true_and]
    simp only [Bool.not_eq_true', decide_eq_false_iff_not]
    constructor
    · intro h1; omega
    · intro h1; omega
  · intro h
    simp only [cleanup, List.mem_filter, h, true_and]
    simp only [Bool.not_eq_true', decide_eq_false_iff_not]
    constructor
    · intro h1; omega
    · intro h1; omega

/-- Witness for C9: a job started at time 0 survives a sweep at exactly
the window boundary and two further in-window sweeps, and is purged one
millisecond past the window. -/
theorem cleanup_retention_witness :
    (("j", (aget (createJob initState "j" 0).jobs "j").getD defaultJob) ∈
      (runSweeps (createJob initState "j" 0) [1, 1800000, 3600000]).jobs)
    ∧ ¬ (("j", (aget (createJob initState "j" 0).jobs "j").getD defaultJob) ∈
      (cleanup (createJob initState "j" 0) 3600001).jobs) := by
  constructor
  · exact (cleanup_retention (createJob initState "j" 0) 0 "j"
      ((aget (createJob initState "j" 0).jobs "j").getD defaultJob) "b" defaultBatch
      [1, 1800000, 3600000]).2.2.1 (by decide) (by decide)
  · intro hmem
    have h := (cleanup_retention (createJob initState "j" 0) 3600001 "j"
      ((aget (createJob initState "j" 0).jobs "j").getD defaultJob) "b" defaultBatch
      []).1 (by decide)
    have h2 := h.mp hmem
    revert h2
    decide

/-- Claim C7 (amended): completeBatch performs its transition from ANY
state of an existing batch, not only from running: it sets status
completed, stamps completedAt, clears currentJobId and publishes
batch:complete regardless of the prior status; only a missing batch is
left unchanged. -/
theorem completeBatch_any_status (s : JobManager) (batchId : String) (now : Int) :
    (aget s.batches batchId = none → completeBatch s batchId now = s)
    ∧ (∀ b, aget s.batches batchId = some b →
        aget (completeBatch s batchId now).batches batchId =
          some { b with status := .completed, completedAt := some now, currentJobId := none }
        ∧ (completeBatch s batchId now).events =
            s.events ++ [Event.batchComplete batchId b.completed b.failed b.videos.length]) := by
  constructor
  · intro h
    simp [completeBatch, h]
  · intro b h
    constructor
    · simp [completeBatch, h, aget_aset_self]
    · simp [completeBatch, h]

/-- Witness for C7 (amended): completing the sample pending batch. -/
theorem completeBatch_any_status_witness :
    aget (completeBatch sampleBatch1 "b" 5).batches "b" =
      some { (aget sampleBatch1.batches "b").getD defaultBatch with
             status := .completed, completedAt := some 5, currentJobId := none } :=
  ((completeBatch_any_status sampleBatch1 "b" 5).2 _ rfl).1

/-- Counterexample to C7 as stated: on a batch whose status is pending
(not running), completeBatch does NOT leave the state unchanged; it
flips the status to completed and emits the event. -/
theorem completeBatch_pending_changes_state :
    (aget sampleBatch1.batches "b").map BatchJob.status = some .pending
    ∧ completeBatch sampleBatch1 "b" 5 ≠ sampleBatch1
    ∧ (aget (completeBatch sampleBatch1 "b" 5).batches "b").map BatchJob.status =
        some .completed := by
  decide

/-- Claim C4 (amended): addVideoToBatch returns false and leaves the
whole state unchanged on a batch whose status is completed or
cancelled; getNextQueuedVideo, however, performs no status check: it
removes and returns the head of the queue whenever the batch exists and
the queue is non-empty, in any status. -/
theorem terminal_add_rejected_dequeue_any_status (s : JobManager)
    (batchId : String) (b : BatchJob) (p n : String)
    (h : aget s.batches batchId = some b) :
    ((b.status = .completed ∨ b.status = .cancelled) →
      addVideoToBatch s batchId p n = (false, s))
    ∧ (∀ x rest, b.videoQueue = x :: rest →
        getNextQueuedVideo s batchId =
          (some x, { s with batches := aset s.batches batchId { b with videoQueue := rest } })) := by
  constructor
  · intro hs
    unfold addVideoToBatch
    rw [h]
    simp only
    rw [if_pos hs]
  · intro x rest hq
    simp [getNextQueuedVideo, h, hq]

/-- Witness for C4 (amended): adding to the cancelled sample batch is
rejected with no state change, and the dequeue characterization applies
to its non-empty queue. -/
theorem terminal_add_rejected_witness :
    addVideoToBatch sampleCancelled "b" "/c" "c" = (false, sampleCancelled) ∧
    (getNextQueuedVideo sampleCancelled "b").1 = some { path := "/a", originalName := "/a" } := by
  have h := terminal_add_rejected_dequeue_any_status sampleCancelled "b"
    ((aget sampleCancelled.batches "b").getD defaultBatch) "/c" "c" rfl
  refine ⟨h.1 (Or.inr (by decide)), ?_⟩
  rw [h.2 { path := "/a", originalName := "/a" } [] (by decide)]

/-- Counterexample to C4 as stated: the sample batch is cancelled with a
non-empty queue, yet getNextQueuedVideo removes its head — a queue item
is removed while the status is neither pending nor running. -/
theorem dequeue_in_terminal_state :
    (aget sampleCancelled.batches "b").map BatchJob.status = some .cancelled
    ∧ (aget sampleCancelled.batches "b").map BatchJob.videoQueue =
        some [{ path := "/a", originalName := "/a" }]
    ∧ (getNextQueuedVideo sampleCancelled "b").1 = some { path := "/a", originalName := "/a" }
    ∧ (aget ((getNextQueuedVideo sampleCancelled "b").2).batches "b").map BatchJob.videoQueue =
        some [] := by
  decide

/-- The producer/consumer invariant: over any interleaving on a
non-terminal batch, the successfully dequeued items followed by the
remaining queue equal the initial queue followed by the accepted items;
the status never changes along the way. -/
theorem runQ_fifo (batchId : String) :
    ∀ (qops : List QOp) (s : JobManager) (b : BatchJob),
      aget s.batches batchId = some b →
      b.status ≠ .completed → b.status ≠ .cancelled →
      ∃ b2, aget (runQ batchId s qops).1.batches batchId = some b2 ∧
        b2.status = b.status ∧
        (runQ batchId s qops).2.filterMap id ++ b2.videoQueue =
          b.videoQueue ++ addedItems qops := by
  intro qops
  induction qops with
  | nil =>
      intro s b h _ _
      exact ⟨b, by simpa [runQ] using h, rfl, by simp [runQ, addedItems]⟩
  | cons o rest ih =>
      intro s b h hc1 hc2
      cases o with
      | add p n =>
          have hne : ¬ (b.status = BatchStatus.completed ∨ b.status = BatchStatus.cancelled) := by
            intro hc
            rcases hc with hc | hc
            · exact hc1 hc
            · exact hc2 hc
          have hb1 : aget ((addVideoToBatch s batchId p n).2).batches batchId =
              some { b with videos := b.videos ++ [p],
                            videoQueue := b.videoQueue ++ [{ path := p, originalName := n }],
                            originalNames := aset b.originalNames p n } := by
            unfold addVideoToBatch
            rw [h]
            simp only
            rw [if_neg hne]
            exact aget_aset_self _ _ _
          obtain ⟨b2, hb2, hst, heq⟩ := ih ((addVideoToBatch s batchId p n).2) _ hb1 hc1 hc2
          refine ⟨b2, ?_, hst, ?_⟩
          · rw [runQ]
            exact hb2
          · rw [runQ]
            rw [heq]
            simp [addedItems]
      | next =>
          cases hq : b.videoQueue with
          | nil =>
              have hstep : getNextQueuedVideo s batchId = (none, s) := by
                simp [getNextQueuedVideo, h, hq]
              obtain ⟨b2, hb2, hst, heq⟩ := ih s b h hc1 hc2
              rw [hq] at heq
              refine ⟨b2, ?_, hst, ?_⟩
              · simp only [runQ, hstep]
                exact hb2
              · simp only [runQ, hstep]
                simpa [addedItems] using heq
          | cons x xs =>
              have hstep : getNextQueuedVideo s batchId =
                  (some x, { s with batches := aset s.batches batchId { b with videoQueue := xs } }) := by
                simp [getNextQueuedVideo, h, hq]
              have hb1 : aget ({ s with
                  batches := aset s.batches batchId { b with videoQueue := xs } }).batches batchId =
                  some { b with videoQueue := xs } := aget_aset_self _ _ _
              obtain ⟨b2, hb2, hst, heq⟩ := ih _ _ hb1 hc1 hc2
              refine ⟨b2, ?_, hst, ?_⟩
              · simp only [runQ, hstep]
                exact hb2
              · simp only [runQ, hstep, List.filterMap_cons, id_eq, List.cons_append]
                rw [show addedItems (QOp.next :: rest) = addedItems rest from by simp [addedItems]]
                exact congrArg (List.cons x) heq

/-- Claim C1: starting from an empty batch, for any interleaving of
addVideoToBatch and getNextQueuedVideo calls, the successfully dequeued
items followed by the remaining queue equal exactly the accepted items
in acceptance order — every accepted item is dequeued at most once, in
FIFO order, and exactly once when the queue drains — and
getNextQueuedVideo returns the null sentinel precisely when the queue
is empty. -/
theorem addVideo_nextQueued_fifo (s0 : JobManager) (model : String) (fps : Int)
    (ec : Option Int) (batchId : String) (now : Int) (qops : List QOp) :
    (∃ b2, aget (runQ batchId (createEmptyBatch s0 model fps ec batchId now) qops).1.batches batchId
        = some b2 ∧
      (runQ batchId (createEmptyBatch s0 model fps ec batchId now) qops).2.filterMap id
        ++ b2.videoQueue = addedItems qops)
    ∧ (∀ (s : JobManager) (b : BatchJob), aget s.batches batchId = some b →
        ((getNextQueuedVideo s batchId).1 = none ↔ b.videoQueue = [])) := by
  constructor
  · have hb0 : ∃ b0, aget (createEmptyBatch s0 model fps ec batchId now).batches batchId = some b0
        ∧ b0.status = BatchStatus.pending ∧ b0.videoQueue = [] :=
      ⟨_, aget_aset_self _ _ _, rfl, rfl⟩
    obtain ⟨b0, h0, hst0, hq0⟩ := hb0
    obtain ⟨b2, hb2, _, heq⟩ := runQ_fifo batchId qops _ b0 h0
      (by rw [hst0]; simp) (by rw [hst0]; simp)
    refine ⟨b2, hb2, ?_⟩
    rw [heq, hq0]
    simp
  · intro s b h
    cases hq : b.videoQueue with
    | nil => simp [getNextQueuedVideo, h, hq]
    | cons x xs => simp [getNextQueuedVideo, h, hq]

/-- Witness for C1: two adds then three dequeues drain the queue in FIFO
order; the empty-queue check applies to the sample batch. -/
theorem addVideo_nextQueued_fifo_witness :
    (∃ b2, aget (runQ "b" (createEmptyBatch initState "m" 1 none "b" 0)
        [QOp.add "/a" "a.mp4", QOp.add "/b" "b.mp4", QOp.next, QOp.next, QOp.next]).1.batches "b"
        = some b2 ∧
      (runQ "b" (createEmptyBatch initState "m" 1 none "b" 0)
        [QOp.add "/a" "a.mp4", QOp.add "/b" "b.mp4", QOp.next, QOp.next, QOp.next]).2.filterMap id
        ++ b2.videoQueue = addedItems
          [QOp.add "/a" "a.mp4", QOp.add "/b" "b.mp4", QOp.next, QOp.next, QOp.next])
    ∧ ((getNextQueuedVideo sampleBatch1 "b").1 = none ↔
        ((aget sampleBatch1.batches "b").getD defaultBatch).videoQueue = []) :=
  ⟨(addVideo_nextQueued_fifo initState "m" 1 none "b" 0
      [QOp.add "/a" "a.mp4", QOp.add "/b" "b.mp4", QOp.next, QOp.next, QOp.next]).1,
   (addVideo_nextQueued_fifo initState "m" 1 none "b" 0
      [QOp.add "/a" "a.mp4", QOp.add "/b" "b.mp4", QOp.next, QOp.next, QOp.next]).2
     sampleBatch1 _ rfl⟩

/-- On a batch that exists but is not running, any sequence of
cancelBatch calls returns only false and never changes the state. -/
theorem cancelMany_not_running (batchId : String) :
    ∀ (ts : List Int) (s : JobManager) (b : BatchJob),
      aget s.batches batchId = some b → b.status ≠ .running →
      cancelMany s batchId ts = (List.replicate ts.length false, s) := by
  intro ts
  induction ts with
  | nil =>
      intro s b h hs
      simp [cancelMany]
  | cons t ts ih =>
      intro s b h hs
      have hstep : cancelBatch s batchId t = (false, s) := by
        unfold cancelBatch
        rw [h]
        simp only
        rw [if_neg hs]
      simp [cancelMany, hstep, ih s b h hs, List.replicate_succ]

/-- Claim C3: over any sequence of cancelBatch calls on an existing
batch, true is returned exactly once, by the first call made while the
status is running: that call flips the status to cancelled, stamps
completedAt and publishes the batch:cancelled event, and every
subsequent call (the status now being cancelled) returns false and
changes nothing; if the status was not running to begin with, every
call returns false and changes nothing. -/
theorem cancelBatch_exactly_once (s : JobManager) (batchId : String) (b : BatchJob)
    (h : aget s.batches batchId = some b) :
    (b.status ≠ .running →
      ∀ ts, cancelMany s batchId ts = (List.replicate ts.length false, s))
    ∧ (b.status = .running → ∀ t ts,
        (cancelMany s batchId (t :: ts)).1 = true :: List.replicate ts.length false
        ∧ (cancelMany s batchId (t :: ts)).2 = (cancelBatch s batchId t).2
        ∧ aget (cancelBatch s batchId t).2.batches batchId =
            some { b with status := .cancelled, completedAt := some t }
        ∧ (cancelBatch s batchId t).2.events =
            s.events ++ [Event.batchCancelled batchId b.completed b.failed
              ((b.videos.length : Int) - (b.completed.length : Int)
                - (b.failed.length : Int))]) := by
  constructor
  · intro hs ts
    exact cancelMany_not_running batchId ts s b h hs
  · intro hs t ts
    have hstep : cancelBatch s batchId t =
        (true, { s with
          batches := aset s.batches batchId
            { b with status := .cancelled, completedAt := some t },
          events := s.events ++ [Event.batchCancelled batchId b.completed b.failed
            ((b.videos.length : Int) - (b.completed.length : Int)
              - (b.failed.length : Int))] }) := by
      unfold cancelBatch
      rw [h]
      simp only
      rw [if_pos hs]
    have hb2 : aget (cancelBatch s batchId t).2.batches batchId =
        some { b with status := .cancelled, completedAt := some t } := by
      rw [hstep]
      exact aget_aset_self _ _ _
    have hrest := cancelMany_not_running batchId ts (cancelBatch s batchId t).2 _ hb2 (by simp)
    refine ⟨?_, ?_, hb2, ?_⟩
    · rw [cancelMany]
      simp only [hrest]
      simp [hstep]
    · rw [cancelMany]
      simp only [hrest]
    · rw [hstep]

/-- Witness for C3: on the running sample batch, two consecutive cancels
return true then false, and the cancelled status and event are
observed. -/
theorem cancelBatch_exactly_once_witness :
    (cancelMany sampleRunning "b" [5, 9]).1 = [true, false] ∧
    aget (cancelBatch sampleRunning "b" 5).2.batches "b" =
      some { (aget sampleRunning.batches "b").getD defaultBatch with
             status := .cancelled, completedAt := some 5 } := by
  have h := (cancelBatch_exactly_once sampleRunning "b"
    ((aget sampleRunning.batches "b").getD defaultBatch) rfl).2 (by decide) 5 [9]
  exact ⟨h.1, h.2.2.1⟩

/-- The relation between current job id and batch status that actually
holds in every reachable state: a non-null currentJobId implies the
status is running or cancelled. -/
def currentJobInv (s : JobManager) : Prop :=
  ∀ p ∈ s.batches,
    (p : String × BatchJob).2.currentJobId ≠ none →
      p.2.status = BatchStatus.running ∨ p.2.status = BatchStatus.cancelled

/-- The invariant survives shrinking the batches map. -/
theorem currentJobInv_of_sub {s2 s : JobManager}
    (hsub : ∀ p, p ∈ s2.batches → p ∈ s.batches) (hinv : currentJobInv s) :
    currentJobInv s2 :=
  fun p hp => hinv p (hsub p hp)

/-- The invariant survives overwriting one key with a batch that itself
satisfies the relation. -/
theorem currentJobInv_aset {s : JobManager} {k : String} {b2 : BatchJob}
    {jobs2 : List (String × Job)} {events2 : List Event}
    (hinv : currentJobInv s)
    (h2 : b2.currentJobId ≠ none →
      b2.status = BatchStatus.running ∨ b2.status = BatchStatus.cancelled) :
    currentJobInv { jobs := jobs2, batches := aset s.batches k b2, events := events2 } := by
  intro p hp hj
  rcases mem_aset hp with rfl | hmem
  · exact h2 hj
  · exact hinv p hmem hj

/-- Every single JobManager call preserves the current-job/status
relation. -/
theorem applyOp_currentJobInv (s : JobManager) (o : Op) (hinv : currentJobInv s) :
    currentJobInv (applyOp s o) := by
  cases o with
  | createJob id now =>
      intro p hp hj
      exact hinv p hp hj
  | updateProgress id pr =>
      intro p hp hj
      refine hinv p ?_ hj
      cases hget : aget s.jobs id <;>
        simpa [applyOp, updateProgress, hget] using hp
  | completeJob id r now =>
      intro p hp hj
      refine hinv p ?_ hj
      cases hget : aget s.jobs id <;>
        simpa [applyOp, completeJob, hget] using hp
  | failJob id e now =>
      intro p hp hj
      refine hinv p ?_ hj
      cases hget : aget s.jobs id <;>
        simpa [applyOp, failJob, hget] using hp
  | cleanup now =>
      intro p hp hj
      exact hinv p (List.mem_of_mem_filter hp) hj
  | createBatch videos model fps batchId now =>
      exact currentJobInv_aset hinv (fun hj => absurd rfl hj)
  | createEmptyBatch model fps ec batchId now =>
      exact currentJobInv_aset hinv (fun hj => absurd rfl hj)
  | addVideoToBatch batchId pth nm =>
      show currentJobInv (addVideoToBatch s batchId pth nm).2
      cases hget : aget s.batches batchId with
      | none =>
          have hstep : addVideoToBatch s batchId pth nm = (false, s) := by
            unfold addVideoToBatch
            rw [hget]
          rw [hstep]
          exact hinv
      | some b =>
          by_cases hterm : b.status = BatchStatus.completed ∨ b.status = BatchStatus.cancelled
          · have hstep : addVideoToBatch s batchId pth nm = (false, s) := by
              unfold addVideoToBatch
              rw [hget]
              simp only
              rw [if_pos hterm]
            rw [hstep]
            exact hinv
          · have hstep : (addVideoToBatch s batchId pth nm).2 =
                { s with
                  batches := aset s.batches batchId
                    { b with videos := b.videos ++ [pth],
                             videoQueue := b.videoQueue ++ [{ path := pth, originalName := nm }],
                             originalNames := aset b.originalNames pth nm },
                  events := s.events ++ [Event.batchVideoAdded batchId pth nm
                    (b.videoQueue ++ [({ path := pth, originalName := nm } : VideoQueueItem)]).length
                    (b.videos ++ [pth]).length] } := by
              unfold addVideoToBatch
              rw [hget]
              simp only
              rw [if_neg hterm]
            rw [hstep]
            exact currentJobInv_aset hinv (hinv (batchId, b) (aget_mem hget))
  | markUploadsComplete batchId =>
      show currentJobInv (markUploadsComplete s batchId)
      cases hget : aget s.batches batchId with
      | none =>
          have hstep : markUploadsComplete s batchId = s := by
            unfold markUploadsComplete
            rw [hget]
          rw [hstep]
          exact hinv
      | some b =>
          have hstep : markUploadsComplete s batchId =
              { s with
                batches := aset s.batches batchId { b with uploadsComplete := true },
                events := s.events ++ [Event.batchUploadsComplete batchId b.videos.length] } := by
            unfold markUploadsComplete
            rw [hget]
          rw [hstep]
          exact currentJobInv_aset hinv (hinv (batchId, b) (aget_mem hget))
  | getNextQueuedVideo batchId =>
      show currentJobInv (getNextQueuedVideo s batchId).2
      cases hget : aget s.batches batchId with
      | none =>
          have hstep : getNextQueuedVideo s batchId = (none, s) := by
            unfold getNextQueuedVideo
            rw [hget]
          rw [hstep]
          exact hinv
      | some b =>
          cases hq : b.videoQueue with
          | nil =>
              have hstep : getNextQueuedVideo s batchId = (none, s) := by
                simp [getNextQueuedVideo, hget, hq]
              rw [hstep]
              exact hinv
          | cons x xs =>
              have hstep : getNextQueuedVideo s batchId =
                  (some x, { s with
                    batches := aset s.batches batchId { b with videoQueue := xs } }) := by
                simp [getNextQueuedVideo, hget, hq]
              rw [hstep]
              exact currentJobInv_aset hinv (hinv (batchId, b) (aget_mem hget))
  | startBatchVideo batchId pth jobId =>
      show currentJobInv (startBatchVideo s batchId pth jobId)
      cases hget : aget s.batches batchId with
      | none =>
          have hstep : startBatchVideo s batchId pth jobId = s := by
            unfold startBatchVideo
            rw [hget]
          rw [hstep]
          exact hinv
      | some b =>
          have hstep : startBatchVideo s batchId pth jobId =
              { s with
                batches := aset s.batches batchId
                  { b with status := .running, currentIndex := indexOf b.videos pth,
                           currentJobId := some jobId },
                events := s.events ++ [Event.batchVideoStart batchId pth
                  (indexOf b.videos pth) b.videos.length] } := by
            unfold startBatchVideo
            rw [hget]
          rw [hstep]
          exact currentJobInv_aset hinv (fun _ => Or.inl rfl)
  | updateBatchVideoProgress batchId pth pr =>
      intro p hp hj
      refine hinv p ?_ hj
      cases hget : aget s.batches batchId <;>
        simpa [applyOp, updateBatchVideoProgress, hget] using hp
  | completeBatchVideo batchId pth r =>
      show currentJobInv (completeBatchVideo s batchId pth r)
      cases hget : aget s.batches batchId with
      | none =>
          have hstep : completeBatchVideo s batchId pth r = s := by
            unfold completeBatchVideo
            rw [hget]
          rw [hstep]
          exact hinv
      | some b =>
          have hstep : completeBatchVideo s batchId pth r =
              { s with
                batches := aset s.batches batchId
                  { b with completed := b.completed ++ [pth],
                           results := aset b.results pth r, currentJobId := none },
                events := s.events ++ [Event.batchVideoComplete batchId pth r
                  (b.completed ++ [pth]).length b.videos.length] } := by
            unfold completeBatchVideo
            rw [hget]
          rw [hstep]
          exact currentJobInv_aset hinv (fun hj => absurd rfl hj)
  | failBatchVideo batchId pth e =>
      show currentJobInv (failBatchVideo s batchId pth e)
      cases hget : aget s.batches batchId with
      | none =>
          have hstep : failBatchVideo s batchId pth e = s := by
            unfold failBatchVideo
            rw [hget]
          rw [hstep]
          exact hinv
      | some b =>
          have hstep : failBatchVideo s batchId pth e =
              { s with
                batches := aset s.batches batchId
                  { b with failed := b.failed ++ [(pth, e)], currentJobId := none },
                events := s.events ++ [Event.batchVideoError batchId pth e
                  (b.failed ++ [(pth, e)]).length b.videos.length] } := by
            unfold failBatchVideo
            rw [hget]
          rw [hstep]
          exact currentJobInv_aset hinv (fun hj => absurd rfl hj)
  | skipBatchVideo batchId pth reason =>
      show currentJobInv (skipBatchVideo s batchId pth reason)
      cases hget : aget s.batches batchId with
      | none =>
          have hstep : skipBatchVideo s batchId pth reason = s := by
            unfold skipBatchVideo
            rw [hget]
          rw [hstep]
          exact hinv
      | some b =>
          have hstep : skipBatchVideo s batchId pth reason =
              { s with
                batches := aset s.batches batchId { b with completed := b.completed ++ [pth] },
                events := s.events ++ [Event.batchVideoSkipped batchId pth reason
                  (b.completed ++ [pth]).length b.videos.length] } := by
            unfold skipBatchVideo
            rw [hget]
          rw [hstep]
          exact currentJobInv_aset hinv (hinv (batchId, b) (aget_mem hget))
  | completeBatch batchId now =>
      show currentJobInv (completeBatch s batchId now)
      cases hget : aget s.batches batchId with
      | none =>
          have hstep : completeBatch s batchId now = s := by
            unfold completeBatch
            rw [hget]
          rw [hstep]
          exact hinv
      | some b =>
          have hstep : completeBatch s batchId now =
              { s with
                batches := aset s.batches batchId
                  { b with status := .completed, completedAt := some now, currentJobId := none },
                events := s.events ++ [Event.batchComplete batchId b.completed
                  b.failed b.videos.length] } := by
            unfold completeBatch
            rw [hget]
          rw [hstep]
          exact currentJobInv_aset hinv (fun hj => absurd rfl hj)
  | cancelBatch batchId now =>
      show currentJobInv (cancelBatch s batchId now).2
      cases hget : aget s.batches batchId with
      | none =>
          have hstep : cancelBatch s batchId now = (false, s) := by
            unfold cancelBatch
            rw [hget]
          rw [hstep]
          exact hinv
      | some b =>
          by_cases hrun : b.status = BatchStatus.running
          · have hstep : (cancelBatch s batchId now).2 =
                { s with
                  batches := aset s.batches batchId
                    { b with status := .cancelled, completedAt := some now },
                  events := s.events ++ [Event.batchCancelled batchId b.completed b.failed
                    ((b.videos.length : Int) - (b.completed.length : Int)
                      - (b.failed.length : Int))] } := by
              unfold cancelBatch
              rw [hget]
              simp only
              rw [if_pos hrun]
            rw [hstep]
            exact currentJobInv_aset hinv (fun _ => Or.inr rfl)
          · have hstep : cancelBatch s batchId now = (false, s) := by
              unfold cancelBatch
              rw [hget]
              simp only
              rw [if_neg hrun]
            rw [hstep]
            exact hinv

/-- Any sequence of calls from a state satisfying the relation ends in a
state satisfying it. -/
theorem run_currentJobInv :
    ∀ (ops : List Op) (s : JobManager), currentJobInv s → currentJobInv (run s ops) := by
  intro ops
  induction ops with
  | nil =>
      intro s h
      simpa [run] using h
  | cons o rest ih =>
      intro s h
      rw [run]
      exact ih _ (applyOp_currentJobInv s o h)

/-- Claim C5 (amended): in every state reachable from the fresh manager
by any call sequence, a batch with non-null currentJobId has status
running OR cancelled (cancelBatch does not clear the current job id);
the claim that the referenced job must exist in the registry is dropped
(startBatchVideo records the id without validation and cleanup can
purge the job). -/
theorem currentJobId_nonNull_status (ops : List Op) (batchId : String) (b : BatchJob)
    (hmem : (batchId, b) ∈ (run initState ops).batches)
    (hjob : b.currentJobId ≠ none) :
    b.status = BatchStatus.running ∨ b.status = BatchStatus.cancelled :=
  run_currentJobInv ops initState (fun p hp => by simp [initState] at hp)
    (batchId, b) hmem hjob

/-- Witness for C5 (amended): after createBatch and startBatchVideo the
batch has a non-null current job id, and the theorem yields its status
disjunction. -/
theorem currentJobId_nonNull_status_witness :
    ((aget (run initState [Op.createBatch ["/a"] "m" 1 "b" 0,
        Op.startBatchVideo "b" "/a" "j"]).batches "b").getD defaultBatch).status =
      BatchStatus.running ∨
    ((aget (run initState [Op.createBatch ["/a"] "m" 1 "b" 0,
        Op.startBatchVideo "b" "/a" "j"]).batches "b").getD defaultBatch).status =
      BatchStatus.cancelled :=
  currentJobId_nonNull_status [Op.createBatch ["/a"] "m" 1 "b" 0,
    Op.startBatchVideo "b" "/a" "j"] "b" _ (by decide) (by decide)

/-- Counterexample to C5 as stated: a reachable state (create, start,
cancel) in which the batch holds currentJobId "j" while its status is
cancelled — not running — and no job "j" exists in the registry. -/
theorem currentJobId_violation_after_cancel :
    (aget (run initState [Op.createBatch ["/a"] "m" 1 "b" 0,
        Op.startBatchVideo "b" "/a" "j", Op.cancelBatch "b" 5]).batches "b").map
      BatchJob.currentJobId = some (some "j")
    ∧ (aget (run initState [Op.createBatch ["/a"] "m" 1 "b" 0,
        Op.startBatchVideo "b" "/a" "j", Op.cancelBatch "b" 5]).batches "b").map
      BatchJob.status = some BatchStatus.cancelled
    ∧ aget (run initState [Op.createBatch ["/a"] "m" 1 "b" 0,
        Op.startBatchVideo "b" "/a" "j", Op.cancelBatch "b" 5]).jobs "j" = none := by
  decide

/-- Running a sequence of per-video outcome calls appends exactly the
complete/skip paths to the completed list and exactly the fail pairs to
the failed list, in call order. -/
theorem runV_outcome (batchId : String) :
    ∀ (vops : List VOp) (s : JobManager) (b : BatchJob),
      aget s.batches batchId = some b →
      ∃ b2, aget (runV batchId s vops).batches batchId = some b2 ∧
        b2.completed = b.completed ++ completedOf vops ∧
        b2.failed = b.failed ++ failedOf vops := by
  intro vops
  induction vops with
  | nil =>
      intro s b h
      exact ⟨b, by simpa [runV] using h,
        by simp [completedOf], by simp [failedOf]⟩
  | cons v rest ih =>
      intro s b h
      cases v with
      | completeV p r =>
          have hb1 : aget (completeBatchVideo s batchId p r).batches batchId =
              some { b with completed := b.completed ++ [p],
                            results := aset b.results p r, currentJobId := none } := by
            unfold completeBatchVideo
            rw [h]
            exact aget_aset_self _ _ _
          obtain ⟨b2, hb2, hc, hf⟩ := ih _ _ hb1
          refine ⟨b2, by simpa [runV] using hb2, ?_, ?_⟩
          · rw [hc]
            simp [completedOf]
          · rw [hf]
            simp [failedOf]
      | failV p e =>
          have hb1 : aget (failBatchVideo s batchId p e).batches batchId =
              some { b with failed := b.failed ++ [(p, e)], currentJobId := none } := by
            unfold failBatchVideo
            rw [h]
            exact aget_aset_self _ _ _
          obtain ⟨b2, hb2, hc, hf⟩ := ih _ _ hb1
          refine ⟨b2, by simpa [runV] using hb2, ?_, ?_⟩
          · rw [hc]
            simp [completedOf]
          · rw [hf]
            simp [failedOf]
      | skipV p reason =>
          have hb1 : aget (skipBatchVideo s batchId p reason).batches batchId =
              some { b with completed := b.completed ++ [p] } := by
            unfold skipBatchVideo
            rw [h]
            exact aget_aset_self _ _ _
          obtain ⟨b2, hb2, hc, hf⟩ := ih _ _ hb1
          refine ⟨b2, by simpa [runV] using hb2, ?_, ?_⟩
          · rw [hc]
            simp [completedOf]
          · rw [hf]
            simp [failedOf]

/-- Claim C6 (amended): the code keeps no guard, so exclusivity holds
exactly under driver discipline: starting from a batch with empty
completed and failed lists, if the call sequence never uses one path
both in a fail call and in a complete/skip call, then after any
sequence of completeBatchVideo / failBatchVideo / skipBatchVideo calls
no path is in both the completed and the failed list. -/
theorem completed_failed_exclusive (batchId : String) (vops : List VOp)
    (s : JobManager) (b : BatchJob)
    (h : aget s.batches batchId = some b)
    (hc0 : b.completed = []) (hf0 : b.failed = [])
    (hdisj : ∀ v ∈ vops, ∀ w ∈ vops, VOp.path v = VOp.path w →
      VOp.isFail v = VOp.isFail w)
    (b2 : BatchJob) (h2 : aget (runV batchId s vops).batches batchId = some b2)
    (p : String) (hp : p ∈ b2.completed) (e : String) :
    (p, e) ∉ b2.failed := by
  obtain ⟨b3, hb3, hc, hf⟩ := runV_outcome batchId vops s b h
  rw [h2] at hb3
  injection hb3 with hb3
  subst hb3
  rw [hc, hc0, List.nil_append] at hp
  intro hmem
  rw [hf, hf0, List.nil_append] at hmem
  obtain ⟨v, hv, hfv⟩ := List.mem_filterMap.1 hp
  obtain ⟨w, hw, hfw⟩ := List.mem_filterMap.1 hmem
  have hv1 : VOp.path v = p ∧ VOp.isFail v = false := by
    cases v with
    | completeV q r =>
        simp only [Option.some.injEq] at hfv
        exact ⟨by simp [VOp.path, hfv], rfl⟩
    | failV q e2 => simp at hfv
    | skipV q reason =>
        simp only [Option.some.injEq] at hfv
        exact ⟨by simp [VOp.path, hfv], rfl⟩
  have hw1 : VOp.path w = p ∧ VOp.isFail w = true := by
    cases w with
    | completeV q r => simp at hfw
    | failV q e2 =>
        simp only [Option.some.injEq, Prod.mk.injEq] at hfw
        exact ⟨by simp [VOp.path, hfw.1], rfl⟩
    | skipV q reason => simp at hfw
  have hcontr := hdisj v hv w hw (hv1.1.trans hw1.1.symm)
  rw [hv1.2, hw1.2] at hcontr
  exact Bool.noConfusion hcontr

/-- Witness for C6 (amended): completing "/a" and failing "/b" (disjoint
paths) leaves "/a" absent from the failed list. -/
theorem completed_failed_exclusive_witness :
    ("/a", "e") ∉ ((aget (runV "b" (createBatch initState ["/a", "/b"] "m" 1 "b" 0)
      [VOp.completeV "/a" dummyResult, VOp.failV "/b" "e"]).batches "b").getD
        defaultBatch).failed :=
  completed_failed_exclusive "b" [VOp.completeV "/a" dummyResult, VOp.failV "/b" "e"]
    (createBatch initState ["/a", "/b"] "m" 1 "b" 0) _ rfl (by decide) (by decide)
    (by decide) _ rfl "/a" (by decide) "e"

/-- Counterexample to C6 as stated: nothing stops the driver from
recording the same path as completed and then as failed — after
completeBatchVideo("/a") and failBatchVideo("/a"), the path "/a" sits
in BOTH lists. -/
theorem complete_then_fail_same_path :
    "/a" ∈ ((aget (runV "b" (createBatch initState ["/a"] "m" 1 "b" 0)
      [VOp.completeV "/a" dummyResult, VOp.failV "/a" "boom"]).batches "b").getD
        defaultBatch).completed
    ∧ ("/a", "boom") ∈ ((aget (runV "b" (createBatch initState ["/a"] "m" 1 "b" 0)
      [VOp.completeV "/a" dummyResult, VOp.failV "/a" "boom"]).batches "b").getD
        defaultBatch).failed := by
  decide

end FishFinder
